import Mathlib

/-!
# Verification of the signal-and-backtest simulation engine

Shallow embedding, over `ℚ`, of the trading-bot repository's core:
the risk sizer (`src/src/risk/risk_manager.py`), the rule-based strategy
(`src/src/strategy/trading_strategy.py`), the RSI indicator
(`src/src/indicators/technical_indicators.py`), and the two backtest
engine variants (`src/src/backtesting/backtest_engine.py`, called the
*backtesting* variant below, and `src/src/backtest/backtest_engine.py`,
called the *backtest* variant).

Prices, cash and indicator values are modelled as exact rationals.
Pandas/NumPy NaN cells (indicator warm-up) are modelled as `Option ℚ`
with `none` for NaN; comparisons against NaN are `false`, matching
IEEE-754 comparison semantics used by the Python code.
-/

namespace TradingBot

/-- Python `int()` applied to a rational: truncation toward zero. -/
def pyInt (q : ℚ) : ℤ := if 0 ≤ q then ⌊q⌋ else ⌈q⌉

/-- Comparison of two possibly-NaN values, as the Python float `<`:
any comparison involving NaN is `false`. -/
def onLt (a b : Option ℚ) : Bool :=
  match a, b with
  | some x, some y => decide (x < y)
  | _, _ => false

/-- Comparison of two possibly-NaN values, as the Python float `<=`:
any comparison involving NaN is `false`. -/
def onLe (a b : Option ℚ) : Bool :=
  match a, b with
  | some x, some y => decide (x ≤ y)
  | _, _ => false

namespace Risk

/-- `Config.MAX_DAILY_LOSS` (config.py, literal 0.05). -/
def maxDailyLoss : ℚ := 5 / 100

/-- `Config.MAX_POSITION_SIZE` (config.py, literal 0.20). -/
def maxPositionSize : ℚ := 20 / 100

/-- `RiskManager.calculate_position_size` (src/src/risk/risk_manager.py,
lines 44-99).  `capital`, `riskPerTrade` and `dailyPnl` are the
`self` fields read by the method; `reset_daily_limits` only touches the
wall clock and `daily_pnl`, so it is represented by passing the current
`dailyPnl`. -/
def calculate_position_size (capital riskPerTrade dailyPnl : ℚ)
    (entryPrice stopLossPrice signalStrength : ℚ) : ℤ :=
  if dailyPnl ≤ -capital * maxDailyLoss then 0
  else
    let riskAmount := capital * riskPerTrade * signalStrength
    let priceRisk := |entryPrice - stopLossPrice|
    if priceRisk = 0 then 0
    else
      let positionSize := pyInt (riskAmount / priceRisk)
      let positionValue := (positionSize : ℚ) * entryPrice
      let maxPositionValue := capital * maxPositionSize
      let positionSize2 :=
        if maxPositionValue < positionValue then pyInt (maxPositionValue / entryPrice)
        else positionSize
      if positionSize2 = 0 ∧ 0 < riskAmount then 1 else positionSize2

/-- `RiskManager.calculate_trailing_stop` (src/src/risk/risk_manager.py,
lines 121-141); `trailingStopPercent` is `Config.TRAILING_STOP_PERCENT`. -/
def calculate_trailing_stop (trailingStopPercent highestPrice : ℚ) (isLong : Bool) : ℚ :=
  if isLong then highestPrice * (1 - trailingStopPercent)
  else highestPrice * (1 + trailingStopPercent)

end Risk

namespace Strategy

/-- Configuration read by `TradingStrategy` from `config.py`:
`STOP_LOSS_PERCENT` / `TRAILING_STOP_PERCENT` (env defaults 0.02 / 0.01)
and the indicator periods used by the insufficient-data guard. -/
structure StrategyConfig where
  stopLossPct : ℚ
  trailingStopPct : ℚ
  emaPeriod : ℕ
  macdSlow : ℕ
  supertrendPeriod : ℕ
deriving DecidableEq

/-- One row of the indicator-annotated DataFrame consumed by
`TradingStrategy`.  OHLC columns are plain rationals; indicator columns
may be NaN during warm-up, modelled as `none`. -/
structure StratRow where
  high : ℚ := 0
  low : ℚ := 0
  close : ℚ := 0
  rsi : Option ℚ := none
  macd : Option ℚ := none
  macdSignal : Option ℚ := none
  supertrend : Option ℚ := none
  supertrendDir : Option ℚ := none
  ema : Option ℚ := none
deriving DecidableEq, Inhabited

/-- `TradingStrategy._check_entry_conditions` (src/src/strategy/
trading_strategy.py, lines 111-160).  Returns the `(Signal, Entry_Price,
Stop_Loss)` triple written into the DataFrame; the textual `Reason`
column is dropped. -/
def checkEntryConditions (Q : StrategyConfig) (cur prev : StratRow) :
    ℤ × Option ℚ × Option ℚ :=
  match cur.rsi, cur.macd, cur.supertrend with
  | some rsi, some macd, some _ =>
    let rsiOversold := decide (rsi < 30)
    let rsiOverboughtReversal := decide (70 < rsi) && onLe prev.rsi (some 70)
    let macdBullishCrossover :=
      onLt cur.macdSignal (some macd) && onLe prev.macd prev.macdSignal
    let macdAboveSignal := onLt cur.macdSignal (some macd)
    let supertrendUptrend := cur.supertrendDir = some 1
    let priceAboveEma := onLt cur.ema (some cur.close)
    if (rsiOversold || rsiOverboughtReversal) && macdBullishCrossover &&
        supertrendUptrend && priceAboveEma then
      (1, some cur.close, some (cur.close * (1 - Q.stopLossPct)))
    else if macdAboveSignal && supertrendUptrend && priceAboveEma &&
        decide (rsi < 50) then
      (1, some cur.close, some (cur.close * (1 - Q.stopLossPct)))
    else (0, none, none)
  | _, _, _ => (0, none, none)

/-- The `Signal` column produced by `TradingStrategy.calculate_signals`
(src/src/strategy/trading_strategy.py, lines 65-109): all zeros when the
bar count is below the largest configured period, otherwise row 0 keeps
the initial 0 and each later row gets the signal of
`_check_entry_conditions` on the row and its predecessor. -/
def calculateSignals (Q : StrategyConfig) (rows : List StratRow) : List ℤ :=
  if rows.length < max Q.emaPeriod (max Q.macdSlow Q.supertrendPeriod) then
    List.replicate rows.length 0
  else
    (List.range rows.length).map fun i =>
      if i = 0 then 0
      else (checkEntryConditions Q (rows.getD i default) (rows.getD (i - 1) default)).1

/-- Maximum of `f` over the inclusive index range `[e, c]`, the embedding
of `df.loc[df.index[e]:df.index[c], col].max()`. -/
def highMax (f : ℕ → ℚ) (e c : ℕ) : ℚ :=
  (List.range (c + 1 - e)).foldl (fun m k => max m (f (e + k))) (f e)

/-- The trailing-stop level computed by
`TradingStrategy.check_exit_conditions` (src/src/strategy/
trading_strategy.py, lines 193-195): the highest `High` since entry
times `1 - TRAILING_STOP_PERCENT`. -/
def trailingStopLevel (Q : StrategyConfig) (rows : List StratRow)
    (entryIndex currentIndex : ℕ) : ℚ :=
  highMax (fun j => (rows.getD j default).high) entryIndex currentIndex *
    (1 - Q.trailingStopPct)

/-- Exit reasons produced by `TradingStrategy.check_exit_conditions`,
plus the engine-level forced close `end_of_data`. -/
inductive ExitReason
  | stopLoss
  | trailingStop
  | rsiOverbought
  | macdBearish
  | supertrendDown
  | priceBelowEma
  | endOfData
deriving DecidableEq

/-- `TradingStrategy.check_exit_conditions` (src/src/strategy/
trading_strategy.py, lines 162-222).  Returns `none` for the
`(False, '', nan)` no-exit result and `some (reason, exit_price)`
otherwise; the textual reason strings are mapped to `ExitReason`. -/
def checkExitConditions (Q : StrategyConfig) (rows : List StratRow)
    (entryPrice : ℚ) (entryIndex currentIndex : ℕ) (isLong : Bool) :
    Option (ExitReason × ℚ) :=
  if rows.length ≤ currentIndex then none
  else
    let cur := rows.getD currentIndex default
    if isLong = true ∧ cur.low ≤ entryPrice * (1 - Q.stopLossPct) then
      some (.stopLoss, entryPrice * (1 - Q.stopLossPct))
    else
      let ts := trailingStopLevel Q rows entryIndex currentIndex
      if isLong = true ∧ cur.low ≤ ts then some (.trailingStop, ts)
      else if isLong = true ∧ onLt (some 70) cur.rsi = true then
        some (.rsiOverbought, cur.close)
      else if 0 < currentIndex ∧
          onLt cur.macd cur.macdSignal = true ∧
          onLe (rows.getD (currentIndex - 1) default).macdSignal
            (rows.getD (currentIndex - 1) default).macd = true then
        some (.macdBearish, cur.close)
      else if cur.supertrendDir = some (-1) then some (.supertrendDown, cur.close)
      else if onLt (some cur.close) cur.ema = true then
        some (.priceBelowEma, cur.close)
      else none

/-- `TradingStrategy.get_signal_strength` (src/src/strategy/
trading_strategy.py, lines 224-264). -/
def getSignalStrength (rows : List StratRow) (i : ℕ) : ℚ :=
  if rows.length ≤ i then 0
  else
    let cur := rows.getD i default
    match cur.rsi, cur.macd with
    | some rsi, some macd =>
      let s1 : ℚ := if rsi < 30 then 3 / 10 else if rsi < 40 then 2 / 10 else 0
      let s2 : ℚ :=
        if onLt cur.macdSignal (some macd) then
          match cur.macdSignal with
          | some ms => min (3 / 10) ((if ms = 0 then 0 else (macd - ms) / |ms|) * 10)
          | none => 0
        else 0
      let s3 : ℚ := if cur.supertrendDir = some 1 then 2 / 10 else 0
      let s4 : ℚ := if onLt cur.ema (some cur.close) then 2 / 10 else 0
      min 1 (s1 + s2 + s3 + s4)
    | _, _ => 0

end Strategy

namespace Indicators

/-- Per-bar price deltas `data.diff()`: element `i` is
`closes[i+1] - closes[i]`. -/
def deltas (closes : List ℚ) : List ℚ :=
  List.zipWith (fun a b => a - b) closes.tail closes

/-- The gain series of `TechnicalIndicators.calculate_rsi`
(src/src/indicators/technical_indicators.py, line 33):
`delta.where(delta > 0, 0)`.  The leading NaN of `diff()` fails the
`> 0` test and is replaced by 0, hence the leading `0 ::`. -/
def gains (closes : List ℚ) : List ℚ :=
  0 :: (deltas closes).map fun d => if 0 < d then d else 0

/-- The loss series of `TechnicalIndicators.calculate_rsi` (line 34):
`(-delta.where(delta < 0, 0))`, with the same leading 0. -/
def losses (closes : List ℚ) : List ℚ :=
  0 :: (deltas closes).map fun d => if d < 0 then -d else 0

/-- `series.rolling(window=period).mean()` at row `i`: NaN (`none`)
while fewer than `period` rows are available, otherwise the arithmetic
mean of the last `period` values. -/
def rollingMean (xs : List ℚ) (period i : ℕ) : Option ℚ :=
  if 1 ≤ period ∧ period ≤ i + 1 ∧ i < xs.length then
    some (((xs.drop (i + 1 - period)).take period).sum / period)
  else none

/-- Row `i` of `TechnicalIndicators.calculate_rsi`
(src/src/indicators/technical_indicators.py, lines 19-39):
`rs = gain / loss; rsi = 100 - 100 / (1 + rs)` in float arithmetic.
With average loss 0 and positive average gain, `rs` is `+inf` and the
row is `100`; with both averages 0, `rs` is `0/0 = NaN` and the row is
NaN (`none`). -/
def rsiRow (closes : List ℚ) (period i : ℕ) : Option ℚ :=
  match rollingMean (gains closes) period i, rollingMean (losses closes) period i with
  | some g, some l =>
    if l = 0 then (if g = 0 then none else some 100)
    else some (100 - 100 / (1 + g / l))
  | _, _ => none

/-- Modelled from the spec: "RSI: Wilder-style smoothed average
gain/loss over `rsi_period`".  The repository computes no Wilder
smoothing; this definition follows the spec's words (seed by the simple
mean of the first `period` per-bar gains, then
`avg[i] = (avg[i-1]*(period-1) + gain[i]) / period`) for comparison
with the source's `rollingMean`-based average. -/
def wilderAvg (g : ℕ → ℚ) (period : ℕ) : ℕ → Option ℚ
  | 0 => none
  | i + 1 =>
    if i + 1 < period ∨ period = 0 then none
    else if i + 1 = period then
      some ((((List.range period).map fun k => g (k + 1)).sum) / period)
    else (wilderAvg g period i).map fun a => (a * ((period : ℚ) - 1) + g (i + 1)) / period

end Indicators

namespace Metrics

/-- A Python float result that may be a finite value, `float('inf')`,
or NaN. -/
inductive PFloat
  | val (q : ℚ)
  | posInf
  | nan
deriving DecidableEq

/-- The winning trades `trades_df[trades_df['pnl'] > 0]`, by pnl. -/
def winsOf (pnls : List ℚ) : List ℚ := pnls.filter fun p => decide (0 < p)

/-- The losing trades `trades_df[trades_df['pnl'] < 0]`, by pnl. -/
def lossesOf (pnls : List ℚ) : List ℚ := pnls.filter fun p => decide (p < 0)

/-- `profit_factor` of the backtesting-variant
`BacktestEngine._calculate_metrics` (src/src/backtesting/
backtest_engine.py, line 267):
`sum(wins) / abs(sum(losses))` when there is a losing trade with
nonzero loss sum, else `float('inf')`. -/
def profitFactorBacktesting (pnls : List ℚ) : PFloat :=
  let w := winsOf pnls
  let l := lossesOf pnls
  if 0 < l.length ∧ l.sum ≠ 0 then .val (w.sum / |l.sum|) else .posInf

/-- `profit_factor` of the backtest-variant
`BacktestEngine._calculate_metrics` (src/src/backtest/
backtest_engine.py, lines 262-265): `abs(avg_win / avg_loss)` when
`avg_loss != 0`, else `0`.  `avg_loss` is the pandas mean of the losing
trades when some trade is non-winning (NaN if that selection is empty,
which happens only when a trade has pnl exactly 0), else `0`. -/
def profitFactorBacktest (pnls : List ℚ) : PFloat :=
  let w := winsOf pnls
  let l := lossesOf pnls
  let avgWin : ℚ := if 0 < w.length then w.sum / w.length else 0
  let avgLoss : PFloat :=
    if w.length < pnls.length then
      (if 0 < l.length then .val (l.sum / l.length) else .nan)
    else .val 0
  match avgLoss with
  | .val q => if q ≠ 0 then .val |avgWin / q| else .val 0
  | _ => .nan

end Metrics

namespace Backtesting

/-- Constructor arguments of the backtesting-variant `BacktestEngine`
(src/src/backtesting/backtest_engine.py, lines 23-35) together with the
`run_backtest` stop/target fractions. -/
structure Params where
  initialCapital : ℚ
  commission : ℚ
  slippage : ℚ
  stopLossPct : ℚ
  takeProfitPct : ℚ
deriving DecidableEq

/-- The open-position dictionary built at entry
(src/src/backtesting/backtest_engine.py, lines 144-151). -/
structure Position where
  entryDate : ℕ
  entryPrice : ℚ
  quantity : ℤ
  entryValue : ℚ
  stopLoss : ℚ
  takeProfit : ℚ
deriving DecidableEq

/-- Exit reasons recorded by the backtesting-variant engine. -/
inductive Reason
  | stopLoss
  | takeProfit
  | signal
  | endOfData
deriving DecidableEq

/-- A closed-trade record (src/src/backtesting/backtest_engine.py,
lines 116-126); dates are bar indices, `days_held` is dropped. -/
structure Trade where
  entryDate : ℕ
  exitDate : ℕ
  entryPrice : ℚ
  exitPrice : ℚ
  quantity : ℤ
  pnl : ℚ
  returnPct : ℚ
  exitReason : Reason
deriving DecidableEq

/-- The loop state of the backtesting-variant `run_backtest`. -/
structure State where
  capital : ℚ
  position : Option Position
  trades : List Trade
  equity : List ℚ
  dailyReturns : List ℚ
deriving DecidableEq

/-- The equity value appended at the top of each loop iteration
(src/src/backtesting/backtest_engine.py, lines 71-78):
`capital + quantity*price - quantity*entry_price` while a position is
open, else `capital`. -/
def markEquity (st : State) (price : ℚ) : ℚ :=
  match st.position with
  | some p => st.capital + (p.quantity : ℚ) * price - (p.quantity : ℚ) * p.entryPrice
  | none => st.capital

/-- Closing an open position on a bar (src/src/backtesting/
backtest_engine.py, lines 109-128). -/
def closeTrade (P : Params) (st : State) (p : Position) (i : ℕ)
    (exitPrice : ℚ) (reason : Reason) : State :=
  let exitPriceAdj := exitPrice * (1 - P.commission)
  let pnl := (exitPriceAdj - p.entryPrice) * (p.quantity : ℚ)
  { st with
    capital := st.capital + pnl + (p.quantity : ℚ) * p.entryPrice
    position := none
    trades := st.trades ++
      [{ entryDate := p.entryDate, exitDate := i, entryPrice := p.entryPrice,
         exitPrice := exitPrice, quantity := p.quantity, pnl := pnl,
         returnPct := pnl / p.entryValue * 100, exitReason := reason }] }

/-- One iteration of the backtesting-variant `run_backtest` loop
(src/src/backtesting/backtest_engine.py, lines 66-153): append the
equity point and daily return first, then either evaluate exits (stop
loss, then take profit, then a `-1` signal) for an open position, or,
when the bar started flat and the signal is `1`, size at 95% of cash
and open when the share count is positive. -/
def step (P : Params) (st : State) (i : ℕ) (price : ℚ) (signal : ℤ) : State :=
  let eq := markEquity st price
  let dr :=
    match st.equity.getLast? with
    | some prev => st.dailyReturns ++ [(eq - prev) / prev]
    | none => st.dailyReturns
  let st1 : State := { st with equity := st.equity ++ [eq], dailyReturns := dr }
  match st.position with
  | some p =>
    if price ≤ p.stopLoss then closeTrade P st1 p i p.stopLoss .stopLoss
    else if p.takeProfit ≤ price then closeTrade P st1 p i p.takeProfit .takeProfit
    else if signal = -1 then closeTrade P st1 p i (price * (1 - P.slippage)) .signal
    else st1
  | none =>
    if signal = 1 then
      let positionValue := st1.capital * (95 / 100)
      let quantity := pyInt (positionValue / price)
      if 0 < quantity then
        let entryPrice := price * (1 + P.slippage + P.commission)
        let entryValue := (quantity : ℚ) * entryPrice
        { st1 with
          capital := st1.capital - entryValue
          position := some
            { entryDate := i, entryPrice := entryPrice, quantity := quantity,
              entryValue := entryValue, stopLoss := price * (1 - P.stopLossPct),
              takeProfit := price * (1 + P.takeProfitPct) } }
      else st1
    else st1

/-- The bar loop of `run_backtest`; `signals['signal'].iloc[i] if
i < len(signals) else 0` becomes `signals.getD i 0`. -/
def loop (P : Params) : State → ℕ → List ℚ → List ℤ → State
  | st, _, [], _ => st
  | st, i, price :: rest, signals =>
    loop P (step P st i price (signals.getD i 0)) (i + 1) rest signals

/-- The state set up before the bar loop (src/src/backtesting/
backtest_engine.py, lines 60-70): cash at the initial capital, no
position, empty trade log, and the equity curve seeded with the
initial capital. -/
def initState (P : Params) : State :=
  { capital := P.initialCapital, position := none, trades := [],
    equity := [P.initialCapital], dailyReturns := [] }

/-- `BacktestEngine.run_backtest` of the backtesting variant
(src/src/backtesting/backtest_engine.py, lines 44-183): seed the equity
curve with the initial capital, run the bar loop, then force-close any
open position at the last close adjusted by commission and slippage
(no further equity point is appended). -/
def run (P : Params) (prices : List ℚ) (signals : List ℤ) : State :=
  let fin := loop P (initState P) 0 prices signals
  match fin.position, prices.getLast? with
  | some p, some lastClose =>
    let finalPrice := lastClose * (1 - P.commission - P.slippage)
    let pnl := (finalPrice - p.entryPrice) * (p.quantity : ℚ)
    { fin with
      capital := fin.capital + pnl + (p.quantity : ℚ) * p.entryPrice
      position := none
      trades := fin.trades ++
        [{ entryDate := p.entryDate, exitDate := prices.length - 1,
           entryPrice := p.entryPrice, exitPrice := finalPrice,
           quantity := p.quantity, pnl := pnl,
           returnPct := pnl / p.entryValue * 100, exitReason := .endOfData }] }
  | _, _ => fin

/-- Sum of recorded trade pnl values. -/
def sumPnl (ts : List Trade) : ℚ := (ts.map Trade.pnl).sum

/-- The final equity reported by `_calculate_metrics`
(src/src/backtesting/backtest_engine.py, line 224):
`final_capital = equity_curve[-1]`. -/
def finalCapitalReported (st : State) : ℚ := st.equity.getLastD 0

/-- End-of-bar mark-to-market: cash plus the open position marked at the
bar's close.  This is the value the spec requires each equity point to
equal; the engine's `markEquity` differs from it. -/
def endOfBarEquity (st : State) (price : ℚ) : ℚ :=
  match st.position with
  | some p => st.capital + (p.quantity : ℚ) * price
  | none => st.capital

end Backtesting

namespace Backtest

/-- Constructor arguments of the backtest-variant `BacktestEngine`
(src/src/backtest/backtest_engine.py, lines 23-41), plus the fields of
its `RiskManager` that `calculate_position_size` reads: the risk
manager is constructed with the initial capital, `risk_per_trade` from
config, and a daily pnl that the backtest never updates. -/
structure Params where
  initialCapital : ℚ
  commission : ℚ
  slippage : ℚ
  riskPerTrade : ℚ
  dailyPnl : ℚ
deriving DecidableEq

/-- One row of the signal-annotated DataFrame consumed by the
backtest-variant `run_backtest`: the strategy's indicator columns plus
`Signal`, `Entry_Price` and `Stop_Loss` written by `calculate_signals`. -/
structure Row extends Strategy.StratRow where
  signal : ℤ := 0
  entryPriceCol : Option ℚ := none
  stopLossCol : Option ℚ := none
deriving DecidableEq, Inhabited

/-- The position dictionary of the backtest-variant engine
(src/src/backtest/backtest_engine.py, lines 140-148); the `type` field
is always `'LONG'`. -/
structure Position where
  entryDate : ℕ
  entryPrice : ℚ
  stopLoss : ℚ
  quantity : ℤ
  entryIndex : ℕ
deriving DecidableEq

/-- A closed-trade record of the backtest-variant engine
(src/src/backtest/backtest_engine.py, lines 101-112). -/
structure Trade where
  entryDate : ℕ
  exitDate : ℕ
  entryPrice : ℚ
  exitPrice : ℚ
  quantity : ℤ
  pnl : ℚ
  returnPct : ℚ
  exitReason : Strategy.ExitReason
deriving DecidableEq

/-- The loop state of the backtest-variant `run_backtest`. -/
structure State where
  capital : ℚ
  position : Option Position
  trades : List Trade
  equity : List ℚ
deriving DecidableEq

/-- One iteration of the backtest-variant `run_backtest` loop
(src/src/backtest/backtest_engine.py, lines 75-166): evaluate the
strategy's exit conditions for an open position; then, if flat, check
for a `Signal == 1` entry, sizing through the risk manager and opening
only when the quantity is positive and the slippage-adjusted position
value fits in cash; finally append one end-of-bar equity point. -/
def step (P : Params) (Q : Strategy.StrategyConfig) (rows : List Row)
    (st : State) (i : ℕ) : State :=
  let row := rows.getD i default
  let srows := rows.map Row.toStratRow
  let st2 : State :=
    match st.position with
    | some p =>
      match Strategy.checkExitConditions Q srows p.entryPrice p.entryIndex i true with
      | some (reason, exitPrice) =>
        let exitSlip := exitPrice * (1 - P.slippage)
        let grossPnl := (exitSlip - p.entryPrice) * (p.quantity : ℚ)
        let commissionCost := (p.entryPrice + exitSlip) * (p.quantity : ℚ) * P.commission
        let pnl := grossPnl - commissionCost
        { st with
          capital := st.capital + pnl
          position := none
          trades := st.trades ++
            [{ entryDate := p.entryDate, exitDate := i, entryPrice := p.entryPrice,
               exitPrice := exitSlip, quantity := p.quantity, pnl := pnl,
               returnPct := pnl / (p.entryPrice * (p.quantity : ℚ)) * 100,
               exitReason := reason }] }
      | none => st
    | none => st
  let st3 : State :=
    match st2.position with
    | none =>
      if row.signal = 1 then
        match row.entryPriceCol, row.stopLossCol with
        | some ep, some sl =>
          let strength := Strategy.getSignalStrength srows i
          let quantity :=
            Risk.calculate_position_size P.initialCapital P.riskPerTrade P.dailyPnl
              ep sl strength
          if 0 < quantity then
            let epSlip := ep * (1 + P.slippage)
            let positionValue := epSlip * (quantity : ℚ)
            if positionValue ≤ st2.capital then
              { st2 with
                capital := st2.capital - positionValue
                position := some
                  { entryDate := i, entryPrice := epSlip, stopLoss := sl,
                    quantity := quantity, entryIndex := i } }
            else st2
          else st2
        | _, _ => st2
      else st2
    | some _ => st2
  let eq :=
    match st3.position with
    | some p => st3.capital + row.close * (p.quantity : ℚ)
    | none => st3.capital
  { st3 with equity := st3.equity ++ [eq] }

end Backtest

/-! ## Concrete runs used by the claim counterexamples -/

/-- Engine parameters for the C1 failing run: defaults of the
backtesting-variant constructor with an initial capital of 100000. -/
def c1Params : Backtesting.Params :=
  { initialCapital := 100000, commission := 1 / 1000, slippage := 1 / 2000,
    stopLossPct := 1 / 50, takeProfitPct := 1 / 25 }

/-- The C1 failing run: one bar at close 100 with an entry signal. -/
def c1Run : Backtesting.State := Backtesting.run c1Params [100] [1]

/-- Engine parameters for the C2 counterexample run. -/
def c2Params : Backtesting.Params :=
  { initialCapital := 50000, commission := 1 / 1000, slippage := 1 / 2000,
    stopLossPct := 1 / 50, takeProfitPct := 1 / 25 }

/-- The initial loop state of the C2 counterexample run. -/
def c2Init : Backtesting.State :=
  { capital := 50000, position := none, trades := [], equity := [50000],
    dailyReturns := [] }

/-- The state after the single bar of the C2 counterexample run. -/
def c2Step : Backtesting.State := Backtesting.step c2Params c2Init 0 200 1

/-- Engine parameters for the C5 counterexample run. -/
def c5Params : Backtesting.Params :=
  { initialCapital := 100000, commission := 1 / 1000, slippage := 1 / 2000,
    stopLossPct := 1 / 50, takeProfitPct := 1 / 25 }

/-! ## Concrete inputs used by witness theorems -/

/-- Strategy configuration with the config.py defaults
(`STOP_LOSS_PERCENT = 0.02`, `TRAILING_STOP_PERCENT = 0.01`). -/
def defaultStratConfig : Strategy.StrategyConfig :=
  { stopLossPct := 1 / 50, trailingStopPct := 1 / 100,
    emaPeriod := 200, macdSlow := 26, supertrendPeriod := 10 }

/-- Two bars of High prices used to witness trailing-stop monotonicity. -/
def c6Rows : List Strategy.StratRow :=
  [{ high := 102, low := 100, close := 101 }, { high := 105, low := 103, close := 104 }]

/-- An open-position record used to witness the exit-priority theorem. -/
def c2WitPos : Backtesting.Position :=
  { entryDate := 0, entryPrice := 101, quantity := 10, entryValue := 1010,
    stopLoss := 99, takeProfit := 105 }

/-- An engine state holding `c2WitPos`, used to witness the exit-priority
theorem. -/
def c2WitState : Backtesting.State :=
  { capital := 500, position := some c2WitPos, trades := [], equity := [1000],
    dailyReturns := [] }

/-- One strategy row whose low breaches the fixed stop, used to witness
the backtest-variant stop-first conjunct. -/
def c2BTRows : List Strategy.StratRow :=
  [{ high := 99, low := 97, close := 98 }]

/-- Backtest-variant engine parameters used to witness the zero-risk
theorem. -/
def c8Params : Backtest.Params :=
  { initialCapital := 1000, commission := 1 / 1000, slippage := 1 / 2000,
    riskPerTrade := 1 / 50, dailyPnl := 0 }

/-- One signal row whose entry and stop price coincide (zero risk per
share). -/
def c8Rows : List Backtest.Row :=
  [{ close := 10, signal := 1, entryPriceCol := some 10, stopLossCol := some 10 }]

/-- A flat engine state used to witness the zero-risk theorem. -/
def c8State : Backtest.State :=
  { capital := 1000, position := none, trades := [], equity := [] }

/-- A single indicator row used to witness the signal-values theorem. -/
def c10Rows : List Strategy.StratRow := [{ close := 10 }]

/-- A strategy configuration with tiny periods so that a one-row frame
passes the insufficient-data guard. -/
def c10Q : Strategy.StrategyConfig :=
  { stopLossPct := 1 / 50, trailingStopPct := 1 / 100,
    emaPeriod := 1, macdSlow := 1, supertrendPeriod := 1 }

/-! ## Helper lemmas -/

lemma pyInt_nonneg {q : ℚ} (h : 0 ≤ q) : 0 ≤ pyInt q := by
  simp only [pyInt, if_pos h]
  exact Int.floor_nonneg.mpr h

lemma pyInt_cast_le {q : ℚ} (h : 0 ≤ q) : (pyInt q : ℚ) ≤ q := by
  simp only [pyInt, if_pos h]
  exact Int.floor_le q

lemma foldl_max_range_succ (f : ℕ → ℚ) (e : ℕ) (a : ℚ) (n : ℕ) :
    (List.range (n + 1)).foldl (fun m k => max m (f (e + k))) a =
      max ((List.range n).foldl (fun m k => max m (f (e + k))) a) (f (e + n)) := by
  rw [List.range_succ, List.foldl_append]
  rfl

lemma foldl_max_range_mono (f : ℕ → ℚ) (e : ℕ) (a : ℚ) {n m : ℕ} (h : n ≤ m) :
    (List.range n).foldl (fun x k => max x (f (e + k))) a ≤
      (List.range m).foldl (fun x k => max x (f (e + k))) a := by
  induction m with
  | zero => simp [Nat.le_zero.mp h]
  | succ m ih =>
    rcases Nat.lt_or_ge n (m + 1) with hlt | hge
    · calc (List.range n).foldl (fun x k => max x (f (e + k))) a
          ≤ (List.range m).foldl (fun x k => max x (f (e + k))) a :=
            ih (Nat.lt_succ_iff.mp hlt)
        _ ≤ _ := by rw [foldl_max_range_succ]; exact le_max_left _ _
    · have : n = m + 1 := Nat.le_antisymm h hge
      subst this
      exact le_refl _

lemma highMax_mono (f : ℕ → ℚ) (e : ℕ) {c c2 : ℕ} (h : c ≤ c2) :
    Strategy.highMax f e c ≤ Strategy.highMax f e c2 := by
  unfold Strategy.highMax
  exact foldl_max_range_mono f e (f e)
    (Nat.sub_le_sub_right (Nat.add_le_add_right h 1) e)

lemma calc_zero_of_priceRisk {capital rpt dp ep sl str : ℚ} (h : |ep - sl| = 0) :
    Risk.calculate_position_size capital rpt dp ep sl str = 0 := by
  simp only [Risk.calculate_position_size]
  simp [h]

/-! ## Claim theorems -/

/-- C1: the backtesting-variant engine violates the conservation
property.  On the one-bar run `c1Run` (close 100, entry signal, initial
capital 100000, default commission 0.001 and slippage 0.0005) the
reported final equity (`equity_curve[-1]`) is 100000, while
`initial_capital + sum(trade.pnl)` is 99715; the discrepancy of 285 is
far outside the 1e-6 relative tolerance. -/
theorem c1_conservation_violation :
    Backtesting.finalCapitalReported c1Run = 100000 ∧
    c1Params.initialCapital + Backtesting.sumPnl c1Run.trades = 99715 ∧
    ¬ |c1Params.initialCapital + Backtesting.sumPnl c1Run.trades -
        Backtesting.finalCapitalReported c1Run| ≤
      1 / 1000000 * |Backtesting.finalCapitalReported c1Run| := by
  have hrun : c1Run.equity = [100000, 100000] ∧
      Backtesting.sumPnl c1Run.trades = -285 := by
    norm_num [c1Run, c1Params, Backtesting.run, Backtesting.initState,
      Backtesting.loop, Backtesting.step, Backtesting.closeTrade,
      Backtesting.markEquity, Backtesting.sumPnl, pyInt, List.getD]
  refine ⟨?_, ?_, ?_⟩ <;>
    simp [Backtesting.finalCapitalReported, hrun.1, hrun.2, c1Params] <;> norm_num

/-- C2 counterexample: on the bar where the backtesting-variant engine
opens a position, the equity point it appends (the pre-trade capital,
50000) does not equal the end-of-bar mark-to-market value
(cash plus position marked at the close, 49928.9), so the engine does
not append its equity point by end-of-bar mark-to-market. -/
theorem c2_counterexample :
    c2Step.equity.getLast? = some 50000 ∧
    Backtesting.endOfBarEquity c2Step 200 = 499289 / 10 ∧
    (50000 : ℚ) ≠ 499289 / 10 := by
  have hstep : c2Step.equity = [50000, 50000] ∧
      Backtesting.endOfBarEquity c2Step 200 = 499289 / 10 := by
    norm_num [c2Step, c2Init, c2Params, Backtesting.step, Backtesting.closeTrade,
      Backtesting.markEquity, Backtesting.endOfBarEquity, pyInt, List.getD]
  exact ⟨by rw [hstep.1]; rfl, hstep.2, by norm_num⟩

/-- C3 counterexample: the backtest-variant metrics reducer computes
profit factor as `abs(avg_win/avg_loss)` rather than
`sum(wins)/abs(sum(losses))`, and on a trade list with one winning
trade and no losing trades it returns 0, not the +∞ sentinel. -/
theorem c3_counterexample :
    Metrics.profitFactorBacktest [5] = Metrics.PFloat.val 0 ∧
    Metrics.PFloat.val 0 ≠ Metrics.PFloat.posInf ∧
    Metrics.profitFactorBacktest [4, 2, -1] = Metrics.PFloat.val 3 ∧
    Metrics.profitFactorBacktesting [4, 2, -1] = Metrics.PFloat.val 6 ∧
    Metrics.PFloat.val (3 : ℚ) ≠ Metrics.PFloat.val 6 := by
  refine ⟨?_, by simp, ?_, ?_, by norm_num⟩ <;>
    norm_num [Metrics.profitFactorBacktest, Metrics.profitFactorBacktesting,
      Metrics.winsOf, Metrics.lossesOf, List.filter]

/-- C4 counterexample: with capital 100000, risk fraction 0.02, entry
price 1000000 and stop 500000, the risk sizer's minimum-one-share rule
returns quantity 1, and `1 · entry_price = 1000000` exceeds
`capital · max_position_fraction = 20000`. -/
theorem c4_counterexample :
    Risk.calculate_position_size 100000 (1 / 50) 0 1000000 500000 1 = 1 ∧
    (0 : ℚ) < 1000000 ∧
    ¬ ((1 : ℚ) * 1000000 ≤ 100000 * Risk.maxPositionSize) := by
  refine ⟨?_, by norm_num, by norm_num [Risk.maxPositionSize]⟩
  norm_num [Risk.calculate_position_size, Risk.maxDailyLoss, Risk.maxPositionSize, pyInt]

/-- C5 counterexample: a one-bar run with no entry signal produces an
equity curve of length 2, not length 1 — the engine seeds the curve
with the initial capital before the bar loop, so the curve has one more
point than there are input bars. -/
theorem c5_counterexample :
    (Backtesting.run c5Params [100] [0]).equity.length = 2 ∧
    ([100] : List ℚ).length = 1 ∧ (2 : ℕ) ≠ 1 := by
  refine ⟨?_, by simp, by norm_num⟩
  norm_num [c5Params, Backtesting.run, Backtesting.initState, Backtesting.loop,
    Backtesting.step, Backtesting.closeTrade, Backtesting.markEquity, pyInt,
    List.getD]

/-- C7 counterexample: on the constant series `[5,5,5]` with period 2
the average loss at row 2 is 0 but the RSI row is NaN (`none`), not
100 (both averages are 0, so `rs = 0/0` is NaN); and on `[1,2,1,3]`
with period 2 the code's average gain at row 3 (a simple rolling mean,
1) differs from the Wilder-smoothed average gain (5/4), so the RSI is
not computed with Wilder-style smoothing. -/
theorem c7_counterexample :
    Indicators.rollingMean (Indicators.losses [5, 5, 5]) 2 2 = some 0 ∧
    Indicators.rsiRow [5, 5, 5] 2 2 = none ∧
    (none : Option ℚ) ≠ some 100 ∧
    Indicators.rollingMean (Indicators.gains [1, 2, 1, 3]) 2 3 = some 1 ∧
    Indicators.wilderAvg (fun k => (Indicators.gains [1, 2, 1, 3]).getD k 0) 2 3 =
      some (5 / 4) ∧
    (some (1 : ℚ)) ≠ some ((5 : ℚ) / 4) := by
  refine ⟨?_, ?_, by simp, ?_, ?_, by norm_num⟩ <;>
    norm_num [Indicators.rollingMean, Indicators.rsiRow, Indicators.gains,
      Indicators.losses, Indicators.deltas, Indicators.wilderAvg, List.getD,
      List.range_succ]

/-- C4 amended: for every call to the risk sizer with positive entry
price, nonnegative capital and nonnegative risk amount, the returned
quantity is an integer ≥ 0 and `quantity · entry_price` is at most the
larger of `capital · max_position_fraction` and `entry_price` itself
(the minimum-one-share rule can push the position value up to one
entry price beyond the cap). -/
theorem c4_amended :
    ∀ capital riskPerTrade dailyPnl entryPrice stopLossPrice signalStrength : ℚ,
    0 < entryPrice → 0 ≤ capital →
    0 ≤ capital * riskPerTrade * signalStrength →
    0 ≤ Risk.calculate_position_size capital riskPerTrade dailyPnl entryPrice
        stopLossPrice signalStrength ∧
    (Risk.calculate_position_size capital riskPerTrade dailyPnl entryPrice
        stopLossPrice signalStrength : ℚ) * entryPrice ≤
      max (capital * Risk.maxPositionSize) entryPrice := by
  intro cap rpt dp ep sl str hep hcap hrisk
  have hmaxv : 0 ≤ cap * Risk.maxPositionSize :=
    mul_nonneg hcap (by norm_num [Risk.maxPositionSize])
  simp only [Risk.calculate_position_size]
  split_ifs with h1 h2 h3 h4 h5
  · exact ⟨le_refl 0, by rw [Int.cast_zero, zero_mul]; exact le_max_of_le_right hep.le⟩
  · exact ⟨le_refl 0, by rw [Int.cast_zero, zero_mul]; exact le_max_of_le_right hep.le⟩
  · exact ⟨by norm_num, by rw [Int.cast_one, one_mul]; exact le_max_right _ _⟩
  · have hq : 0 ≤ pyInt (cap * Risk.maxPositionSize / ep) :=
      pyInt_nonneg (div_nonneg hmaxv hep.le)
    refine ⟨hq, le_max_of_le_left ?_⟩
    calc (pyInt (cap * Risk.maxPositionSize / ep) : ℚ) * ep
        ≤ cap * Risk.maxPositionSize / ep * ep :=
          mul_le_mul_of_nonneg_right (pyInt_cast_le (div_nonneg hmaxv hep.le)) hep.le
      _ = cap * Risk.maxPositionSize := div_mul_cancel₀ _ (ne_of_gt hep)
  · exact ⟨by norm_num, by rw [Int.cast_one, one_mul]; exact le_max_right _ _⟩
  · have hpr : 0 < |ep - sl| := lt_of_le_of_ne (abs_nonneg _) (Ne.symm h2)
    have hq : 0 ≤ pyInt (cap * rpt * str / |ep - sl|) :=
      pyInt_nonneg (div_nonneg hrisk hpr.le)
    exact ⟨hq, le_max_of_le_left (not_lt.mp h3)⟩

/-- C4 witness: a concrete in-range call (capital 100000, risk fraction
0.02, entry 100, stop 98, full strength) satisfying the amended bound. -/
theorem c4_amended_witness :
    (0 : ℚ) < 100 ∧ (0 : ℚ) ≤ 100000 ∧ (0 : ℚ) ≤ 100000 * (1 / 50) * 1 ∧
    0 ≤ Risk.calculate_position_size 100000 (1 / 50) 0 100 98 1 ∧
    (Risk.calculate_position_size 100000 (1 / 50) 0 100 98 1 : ℚ) * 100 ≤
      max (100000 * Risk.maxPositionSize) 100 := by
  have h := c4_amended 100000 (1 / 50) 0 100 98 1 (by norm_num) (by norm_num)
    (by norm_num)
  exact ⟨by norm_num, by norm_num, by norm_num, h.1, h.2⟩

/-- C9 amended: when the price risk is positive, the risk amount is
positive, the daily-loss check does not fire, and the account capital
is nonnegative, the risk sizer returns a quantity of at least 1
(the minimum-one-share rule applies even when both the risk-based size
and the cap round down to 0). -/
theorem c9_amended :
    ∀ capital riskPerTrade dailyPnl entryPrice stopLossPrice signalStrength : ℚ,
    0 < |entryPrice - stopLossPrice| →
    0 < capital * riskPerTrade * signalStrength →
    ¬ (dailyPnl ≤ -capital * Risk.maxDailyLoss) →
    0 ≤ capital →
    1 ≤ Risk.calculate_position_size capital riskPerTrade dailyPnl entryPrice
        stopLossPrice signalStrength := by
  intro cap rpt dp ep sl str hpr hrisk hdp hcap
  have hmaxv : 0 ≤ cap * Risk.maxPositionSize :=
    mul_nonneg hcap (by norm_num [Risk.maxPositionSize])
  have hs0 : 0 ≤ pyInt (cap * rpt * str / |ep - sl|) :=
    pyInt_nonneg (div_nonneg hrisk.le hpr.le)
  simp only [Risk.calculate_position_size]
  split_ifs with h1 h2 h3 h4
  · exact absurd h1 (ne_of_gt hpr)
  · exact le_refl _
  · have hprod : 0 < (pyInt (cap * rpt * str / |ep - sl|) : ℚ) * ep :=
      lt_of_le_of_lt hmaxv h2
    have hep : 0 < ep := by
      rcases mul_pos_iff.mp hprod with ⟨_, h⟩ | ⟨h, _⟩
      · exact h
      · exact absurd (Int.cast_nonneg.mpr hs0) (not_le.mpr h)
    have hq : 0 ≤ pyInt (cap * Risk.maxPositionSize / ep) :=
      pyInt_nonneg (div_nonneg hmaxv hep.le)
    have hne : pyInt (cap * Risk.maxPositionSize / ep) ≠ 0 :=
      fun h0 => h3 ⟨h0, hrisk⟩
    omega
  · exact le_refl _
  · have hne : pyInt (cap * rpt * str / |ep - sl|) ≠ 0 := fun h0 => h4 ⟨h0, hrisk⟩
    omega

/-- C9 witness: a concrete in-range call (capital 100000, risk fraction
0.02, entry 100, stop 98, full strength) for which the sizer returns at
least one share. -/
theorem c9_amended_witness :
    (0 : ℚ) < |100 - 98| ∧ (0 : ℚ) < 100000 * (1 / 50) * 1 ∧
    ¬ ((0 : ℚ) ≤ -100000 * Risk.maxDailyLoss) ∧ (0 : ℚ) ≤ 100000 ∧
    1 ≤ Risk.calculate_position_size 100000 (1 / 50) 0 100 98 1 := by
  refine ⟨by norm_num, by norm_num, by norm_num [Risk.maxDailyLoss], by norm_num, ?_⟩
  exact c9_amended 100000 (1 / 50) 0 100 98 1 (by norm_num) (by norm_num)
    (by norm_num [Risk.maxDailyLoss]) (by norm_num)

/-- C6: the trailing stop is monotone.  First conjunct: the trailing
stop level computed by `check_exit_conditions` (highest High over the
inclusive window from the entry bar, times `1 - trailing_stop_pct`) is
non-decreasing in the current bar index while the entry index is
fixed, whenever the trailing-stop fraction is at most 1.  Second
conjunct: one ratchet step of `RiskManager.update_position` — the
highest price is replaced by `max highest h` — never lowers the
trailing stop computed by `calculate_trailing_stop` for a LONG
position. -/
theorem c6_trailing_monotone :
    (∀ (Q : Strategy.StrategyConfig) (rows : List Strategy.StratRow) (e c c2 : ℕ),
      c ≤ c2 → Q.trailingStopPct ≤ 1 →
      Strategy.trailingStopLevel Q rows e c ≤ Strategy.trailingStopLevel Q rows e c2) ∧
    (∀ (tsp hp hnew : ℚ), tsp ≤ 1 →
      Risk.calculate_trailing_stop tsp hp true ≤
        Risk.calculate_trailing_stop tsp (max hp hnew) true) := by
  constructor
  · intro Q rows e c c2 hc htsp
    unfold Strategy.trailingStopLevel
    exact mul_le_mul_of_nonneg_right (highMax_mono _ e hc) (by linarith)
  · intro tsp hp hnew htsp
    unfold Risk.calculate_trailing_stop
    simp only [if_pos rfl, if_true]
    exact mul_le_mul_of_nonneg_right (le_max_left _ _) (by linarith)

/-- C6 witness: with the default 1% trailing fraction and the concrete
two-bar window `c6Rows`, the trailing stop at bar 1 is at least the one
at bar 0, and one risk-manager ratchet step does not lower the stop. -/
theorem c6_trailing_monotone_witness :
    (0 : ℕ) ≤ 1 ∧ defaultStratConfig.trailingStopPct ≤ 1 ∧
    Strategy.trailingStopLevel defaultStratConfig c6Rows 0 0 ≤
      Strategy.trailingStopLevel defaultStratConfig c6Rows 0 1 ∧
    Risk.calculate_trailing_stop (1 / 100) 5 true ≤
      Risk.calculate_trailing_stop (1 / 100) (max 5 7) true := by
  refine ⟨by norm_num, by norm_num [defaultStratConfig], ?_, ?_⟩
  · exact c6_trailing_monotone.1 defaultStratConfig c6Rows 0 0 1 (by norm_num)
      (by norm_num [defaultStratConfig])
  · exact c6_trailing_monotone.2 (1 / 100) 5 7 (by norm_num)

/-- C8: zero price risk is handled without an exception.  First
conjunct: whenever `|entry_price - stop_price| = 0` the risk sizer
returns quantity 0 (the embedded function is total, matching the
Python code, which logs a warning and returns — no exception reaches
the caller).  Second conjunct: in the backtest-variant engine loop, a
bar whose entry and stop price coincide opens no position and appends
no trade — the condition is treated as "no trade this bar". -/
theorem c8_zero_risk :
    (∀ capital riskPerTrade dailyPnl entryPrice stopLossPrice signalStrength : ℚ,
      |entryPrice - stopLossPrice| = 0 →
      Risk.calculate_position_size capital riskPerTrade dailyPnl entryPrice
        stopLossPrice signalStrength = 0) ∧
    (∀ (P : Backtest.Params) (Q : Strategy.StrategyConfig)
      (rows : List Backtest.Row) (st : Backtest.State) (i : ℕ) (ep sl : ℚ),
      st.position = none →
      (rows.getD i default).entryPriceCol = some ep →
      (rows.getD i default).stopLossCol = some sl →
      ep = sl →
      (Backtest.step P Q rows st i).position = none ∧
      (Backtest.step P Q rows st i).trades = st.trades) := by
  refine ⟨fun _ _ _ _ _ _ h => calc_zero_of_priceRisk h, ?_⟩
  intro P Q rows st i ep sl hpos hep hsl heq
  have hq : Risk.calculate_position_size P.initialCapital P.riskPerTrade P.dailyPnl
      ep sl (Strategy.getSignalStrength (rows.map Backtest.Row.toStratRow) i) = 0 :=
    calc_zero_of_priceRisk (by rw [heq]; simp)
  simp only [List.getD_eq_getElem?_getD] at hep hsl
  by_cases hsig : (rows[i]?.getD default).signal = 1 <;>
    simp [Backtest.step, hpos, hep, hsl, hq, hsig]

/-- C8 witness: the concrete zero-risk row `c8Rows` (entry 10, stop 10)
sizes to 0 shares and leaves the engine state flat with no new trade. -/
theorem c8_zero_risk_witness :
    Risk.calculate_position_size 1000 (1 / 50) 0 10 10 1 = 0 ∧
    (Backtest.step c8Params defaultStratConfig c8Rows c8State 0).position = none ∧
    (Backtest.step c8Params defaultStratConfig c8Rows c8State 0).trades =
      c8State.trades := by
  have h2 := c8_zero_risk.2 c8Params defaultStratConfig c8Rows c8State 0 10 10 rfl
    rfl rfl rfl
  exact ⟨c8_zero_risk.1 1000 (1 / 50) 0 10 10 1 (by norm_num), h2.1, h2.2⟩

lemma checkEntry_signal_cases (Q : Strategy.StrategyConfig)
    (cur prev : Strategy.StratRow) :
    (Strategy.checkEntryConditions Q cur prev).1 = 0 ∨
    (Strategy.checkEntryConditions Q cur prev).1 = 1 := by
  simp only [Strategy.checkEntryConditions]
  cases cur.rsi <;> cases cur.macd <;> cases cur.supertrend <;> dsimp only <;>
    first
      | exact Or.inl rfl
      | (split_ifs <;> simp)

/-- C10: the signal generator only ever emits 0 or 1.  First conjunct:
`_check_entry_conditions` returns signal 0 or 1 for every pair of
rows.  Second conjunct: every element of the `Signal` column written by
`calculate_signals` is 0 or 1 — a SHORT signal (−1) is never emitted. -/
theorem c10_signal_values :
    (∀ (Q : Strategy.StrategyConfig) (cur prev : Strategy.StratRow),
      (Strategy.checkEntryConditions Q cur prev).1 = 0 ∨
      (Strategy.checkEntryConditions Q cur prev).1 = 1) ∧
    (∀ (Q : Strategy.StrategyConfig) (rows : List Strategy.StratRow) (s : ℤ),
      s ∈ Strategy.calculateSignals Q rows → s = 0 ∨ s = 1) := by
  refine ⟨fun Q cur prev => checkEntry_signal_cases Q cur prev, ?_⟩
  intro Q rows s hs
  simp only [Strategy.calculateSignals] at hs
  split_ifs at hs with hlen
  · exact Or.inl (List.eq_of_mem_replicate hs)
  · rw [List.mem_map] at hs
    obtain ⟨i, _, rfl⟩ := hs
    by_cases h0 : i = 0
    · simp [h0]
    · rw [if_neg h0]
      exact checkEntry_signal_cases Q _ _

/-- C10 witness: on the concrete one-row frame `c10Rows` the signal
column contains the value 0, which is 0 or 1. -/
theorem c10_signal_values_witness :
    (0 : ℤ) ∈ Strategy.calculateSignals c10Q c10Rows ∧
    ((0 : ℤ) = 0 ∨ (0 : ℤ) = 1) := by
  have hm : (0 : ℤ) ∈ Strategy.calculateSignals c10Q c10Rows := by
    simp [Strategy.calculateSignals, c10Q, c10Rows, List.range_succ]
  exact ⟨hm, c10_signal_values.2 c10Q c10Rows 0 hm⟩

lemma step_equity (P : Backtesting.Params) (st : Backtesting.State) (i : ℕ)
    (price : ℚ) (signal : ℤ) :
    (Backtesting.step P st i price signal).equity =
      st.equity ++ [Backtesting.markEquity st price] := by
  cases hpos : st.position with
  | none =>
    simp only [Backtesting.step, hpos]
    split_ifs <;> rfl
  | some p =>
    simp only [Backtesting.step, hpos]
    split_ifs <;> simp [Backtesting.closeTrade]

lemma step_flat (P : Backtesting.Params) (st : Backtesting.State) (i : ℕ)
    (price : ℚ) (signal : ℤ) (hpos : st.position = none) (hsig : signal ≠ 1) :
    (Backtesting.step P st i price signal).position = none ∧
    (Backtesting.step P st i price signal).capital = st.capital ∧
    (Backtesting.step P st i price signal).trades = st.trades ∧
    (Backtesting.step P st i price signal).equity = st.equity ++ [st.capital] := by
  simp [Backtesting.step, Backtesting.markEquity, hpos, hsig]

lemma loop_equity_length (P : Backtesting.Params) (signals : List ℤ) :
    ∀ (prices : List ℚ) (st : Backtesting.State) (i : ℕ),
    (Backtesting.loop P st i prices signals).equity.length =
      st.equity.length + prices.length := by
  intro prices
  induction prices with
  | nil => intro st i; simp [Backtesting.loop]
  | cons price rest ih =>
    intro st i
    simp only [Backtesting.loop]
    rw [ih, step_equity]
    simp only [List.length_append, List.length_singleton, List.length_cons,
      List.length_nil]
    omega

lemma loop_flat (P : Backtesting.Params) (signals : List ℤ)
    (hsig : ∀ s ∈ signals, s ≠ 1) :
    ∀ (prices : List ℚ) (st : Backtesting.State) (i : ℕ), st.position = none →
    (Backtesting.loop P st i prices signals).position = none ∧
    (Backtesting.loop P st i prices signals).capital = st.capital ∧
    (Backtesting.loop P st i prices signals).trades = st.trades ∧
    (Backtesting.loop P st i prices signals).equity =
      st.equity ++ List.replicate prices.length st.capital := by
  intro prices
  induction prices with
  | nil => intro st i h; simp [Backtesting.loop, h]
  | cons price rest ih =>
    intro st i h
    have hs : signals.getD i 0 ≠ 1 := by
      rcases Nat.lt_or_ge i signals.length with hi | hi
      · rw [List.getD_eq_getElem signals 0 hi]
        exact hsig _ (List.getElem_mem hi)
      · rw [List.getD_eq_default signals 0 hi]
        decide
    obtain ⟨h1, h2, h3, h4⟩ := step_flat P st i price (signals.getD i 0) h hs
    obtain ⟨g1, g2, g3, g4⟩ :=
      ih (Backtesting.step P st i price (signals.getD i 0)) (i + 1) h1
    simp only [Backtesting.loop]
    refine ⟨g1, by rw [g2, h2], by rw [g3, h3], ?_⟩
    rw [g4, h4, h2]
    simp [List.replicate_succ]

lemma run_of_flat (P : Backtesting.Params) (prices : List ℚ) (signals : List ℤ)
    (h : (Backtesting.loop P (Backtesting.initState P) 0 prices signals).position =
      none) :
    Backtesting.run P prices signals =
      Backtesting.loop P (Backtesting.initState P) 0 prices signals := by
  simp only [Backtesting.run]
  rw [h]

lemma run_equity (P : Backtesting.Params) (prices : List ℚ) (signals : List ℤ) :
    (Backtesting.run P prices signals).equity =
      (Backtesting.loop P (Backtesting.initState P) 0 prices signals).equity := by
  simp only [Backtesting.run]
  cases hp : (Backtesting.loop P (Backtesting.initState P) 0 prices signals).position <;>
    cases hl : prices.getLast? <;> rfl

/-- C5 amended: every run of the backtesting-variant engine produces an
equity curve with exactly one more point than there are input bars (the
curve is seeded with the initial capital before the loop); a series
whose signals never contain an entry signal yields an empty trade list
and an equity curve equal to the initial capital repeated N+1 times. -/
theorem c5_amended :
    ∀ (P : Backtesting.Params) (prices : List ℚ) (signals : List ℤ),
    (Backtesting.run P prices signals).equity.length = prices.length + 1 ∧
    ((∀ s ∈ signals, s ≠ 1) →
      (Backtesting.run P prices signals).trades = [] ∧
      (Backtesting.run P prices signals).equity =
        List.replicate (prices.length + 1) P.initialCapital) := by
  intro P prices signals
  constructor
  · rw [run_equity, loop_equity_length]
    simp [Backtesting.initState]
    omega
  · intro hsig
    obtain ⟨h1, h2, h3, h4⟩ :=
      loop_flat P signals hsig prices (Backtesting.initState P) 0 rfl
    rw [run_of_flat P prices signals h1]
    refine ⟨by rw [h3]; rfl, ?_⟩
    rw [h4]
    simp [Backtesting.initState, List.replicate_succ]

/-- C5 witness: the concrete one-bar no-signal run has a two-point
equity curve, an empty trade list, and a constant equity curve. -/
theorem c5_amended_witness :
    (Backtesting.run c5Params [100] [0]).equity.length =
      ([100] : List ℚ).length + 1 ∧
    (∀ s ∈ ([0] : List ℤ), s ≠ 1) ∧
    (Backtesting.run c5Params [100] [0]).trades = [] ∧
    (Backtesting.run c5Params [100] [0]).equity =
      List.replicate (([100] : List ℚ).length + 1) c5Params.initialCapital := by
  have hs : ∀ s ∈ ([0] : List ℤ), s ≠ 1 := by decide
  have h := c5_amended c5Params [100] [0]
  exact ⟨h.1, hs, (h.2 hs).1, (h.2 hs).2⟩

/-- C2 amended: per-bar behavior of the engines as implemented.  For
the backtesting variant: every bar appends exactly one equity point,
valued by marking the position held at the *start* of the bar (not the
end-of-bar state); when a position is open, exits are evaluated in
priority stop_loss > take_profit > signal-exit with the first
triggered condition winning and no trailing stop at all; when none
triggers, the position and trade list are unchanged; a bar that begins
with an open position never opens a new one; an entry is considered
only when the bar began flat and the signal is 1, sized at 95% of cash
(`int(capital*0.95/price)` shares), and it opens whenever that share
count is positive — debiting cash by the slippage-and-commission
adjusted entry value with no explicit cash-sufficiency check — while a
flat bar with no entry signal or zero shares changes nothing.  For the
backtest variant: a bar whose low breaches the fixed stop exits with
reason stop_loss at the stop level before any trailing-stop or
indicator exit is considered. -/
theorem c2_amended :
    (∀ (P : Backtesting.Params) (st : Backtesting.State) (i : ℕ) (price : ℚ)
      (signal : ℤ),
      (Backtesting.step P st i price signal).equity =
        st.equity ++ [Backtesting.markEquity st price] ∧
      (∀ p : Backtesting.Position, st.position = some p →
        (price ≤ p.stopLoss →
          ∃ t, (Backtesting.step P st i price signal).trades = st.trades ++ [t] ∧
            t.exitReason = Backtesting.Reason.stopLoss ∧
            t.exitPrice = p.stopLoss ∧
            (Backtesting.step P st i price signal).position = none) ∧
        (¬ price ≤ p.stopLoss → p.takeProfit ≤ price →
          ∃ t, (Backtesting.step P st i price signal).trades = st.trades ++ [t] ∧
            t.exitReason = Backtesting.Reason.takeProfit ∧
            t.exitPrice = p.takeProfit ∧
            (Backtesting.step P st i price signal).position = none) ∧
        (¬ price ≤ p.stopLoss → ¬ p.takeProfit ≤ price → signal = -1 →
          ∃ t, (Backtesting.step P st i price signal).trades = st.trades ++ [t] ∧
            t.exitReason = Backtesting.Reason.signal ∧
            t.exitPrice = price * (1 - P.slippage) ∧
            (Backtesting.step P st i price signal).position = none) ∧
        (¬ price ≤ p.stopLoss → ¬ p.takeProfit ≤ price → signal ≠ -1 →
          (Backtesting.step P st i price signal).trades = st.trades ∧
          (Backtesting.step P st i price signal).position = some p)) ∧
      (∀ p : Backtesting.Position, st.position = some p →
        (Backtesting.step P st i price signal).position = none ∨
        (Backtesting.step P st i price signal).position = some p) ∧
      (st.position = none → signal = 1 →
        0 < pyInt (st.capital * (95 / 100) / price) →
        (Backtesting.step P st i price signal).position = some
          { entryDate := i,
            entryPrice := price * (1 + P.slippage + P.commission),
            quantity := pyInt (st.capital * (95 / 100) / price),
            entryValue := (pyInt (st.capital * (95 / 100) / price) : ℚ) *
              (price * (1 + P.slippage + P.commission)),
            stopLoss := price * (1 - P.stopLossPct),
            takeProfit := price * (1 + P.takeProfitPct) } ∧
        (Backtesting.step P st i price signal).capital =
          st.capital - (pyInt (st.capital * (95 / 100) / price) : ℚ) *
            (price * (1 + P.slippage + P.commission)) ∧
        (Backtesting.step P st i price signal).trades = st.trades) ∧
      (st.position = none →
        ¬ (signal = 1 ∧ 0 < pyInt (st.capital * (95 / 100) / price)) →
        (Backtesting.step P st i price signal).position = none ∧
        (Backtesting.step P st i price signal).trades = st.trades ∧
        (Backtesting.step P st i price signal).capital = st.capital)) ∧
    (∀ (Q : Strategy.StrategyConfig) (rows : List Strategy.StratRow) (ep : ℚ)
      (e c : ℕ),
      c < rows.length →
      (rows.getD c default).low ≤ ep * (1 - Q.stopLossPct) →
      Strategy.checkExitConditions Q rows ep e c true =
        some (Strategy.ExitReason.stopLoss, ep * (1 - Q.stopLossPct))) := by
  constructor
  · intro P st i price signal
    refine ⟨step_equity P st i price signal, ?_, ?_, ?_, ?_⟩
    · intro p hp
      refine ⟨?_, ?_, ?_, ?_⟩
      · intro hstop
        simp only [Backtesting.step, hp, Backtesting.closeTrade]
        rw [if_pos hstop]
        exact ⟨_, rfl, rfl, rfl, rfl⟩
      · intro hnstop htp
        simp only [Backtesting.step, hp, Backtesting.closeTrade]
        rw [if_neg hnstop, if_pos htp]
        exact ⟨_, rfl, rfl, rfl, rfl⟩
      · intro hnstop hntp hsig
        simp only [Backtesting.step, hp, Backtesting.closeTrade]
        rw [if_neg hnstop, if_neg hntp, if_pos hsig]
        exact ⟨_, rfl, rfl, rfl, rfl⟩
      · intro hnstop hntp hsig
        simp only [Backtesting.step, hp, Backtesting.closeTrade]
        rw [if_neg hnstop, if_neg hntp, if_neg hsig]
        exact ⟨rfl, rfl⟩
    · intro p hp
      simp only [Backtesting.step, hp, Backtesting.closeTrade]
      split_ifs <;> first | exact Or.inl rfl | exact Or.inr rfl
    · intro hpos hsig hqty
      simp only [Backtesting.step, hpos]
      rw [if_pos hsig, if_pos hqty]
      exact ⟨rfl, rfl, rfl⟩
    · intro hpos hns
      by_cases hsig : signal = 1
      · have hq : ¬ 0 < pyInt (st.capital * (95 / 100) / price) :=
          fun h => hns ⟨hsig, h⟩
        simp only [Backtesting.step, hpos]
        rw [if_pos hsig, if_neg hq]
        exact ⟨rfl, rfl, rfl⟩
      · simp only [Backtesting.step, hpos]
        rw [if_neg hsig]
        exact ⟨rfl, rfl, rfl⟩
  · intro Q rows ep e c hc hlow
    simp only [Strategy.checkExitConditions]
    rw [if_neg (not_le.mpr hc), if_pos ⟨trivial, hlow⟩]

/-- C2 witness: on a concrete open-position state whose bar close 98
breaches the stop 99 (and would also satisfy no other exit), the
engine appends one pre-trade equity point, closes with reason
stop_loss, and opens no new position that bar; on a concrete flat
state (initial capital 50000) with an entry signal at close 200, the
engine opens the 95%-of-cash position of 237 shares with no cash
check; and the concrete backtest-variant row `c2BTRows` exits with
reason stop_loss at the fixed stop level. -/
theorem c2_amended_witness :
    (Backtesting.step c2Params c2WitState 1 98 0).equity =
      c2WitState.equity ++ [Backtesting.markEquity c2WitState 98] ∧
    c2WitState.position = some c2WitPos ∧
    (98 : ℚ) ≤ c2WitPos.stopLoss ∧
    (∃ t, (Backtesting.step c2Params c2WitState 1 98 0).trades =
        c2WitState.trades ++ [t] ∧
      t.exitReason = Backtesting.Reason.stopLoss ∧
      t.exitPrice = c2WitPos.stopLoss ∧
      (Backtesting.step c2Params c2WitState 1 98 0).position = none) ∧
    ((Backtesting.step c2Params c2WitState 1 98 0).position = none ∨
      (Backtesting.step c2Params c2WitState 1 98 0).position = some c2WitPos) ∧
    0 < pyInt ((Backtesting.initState c2Params).capital * (95 / 100) / 200) ∧
    (Backtesting.step c2Params (Backtesting.initState c2Params) 0 200 1).position =
      some { entryDate := 0,
             entryPrice := 200 * (1 + c2Params.slippage + c2Params.commission),
             quantity :=
               pyInt ((Backtesting.initState c2Params).capital * (95 / 100) / 200),
             entryValue :=
               (pyInt ((Backtesting.initState c2Params).capital * (95 / 100) / 200) : ℚ) *
                 (200 * (1 + c2Params.slippage + c2Params.commission)),
             stopLoss := 200 * (1 - c2Params.stopLossPct),
             takeProfit := 200 * (1 + c2Params.takeProfitPct) } ∧
    (Backtesting.step c2Params (Backtesting.initState c2Params) 0 200 1).trades =
      (Backtesting.initState c2Params).trades ∧
    (0 : ℕ) < c2BTRows.length ∧
    (c2BTRows.getD 0 default).low ≤ 100 * (1 - defaultStratConfig.stopLossPct) ∧
    Strategy.checkExitConditions defaultStratConfig c2BTRows 100 0 0 true =
      some (Strategy.ExitReason.stopLoss,
        100 * (1 - defaultStratConfig.stopLossPct)) := by
  have hstop : (98 : ℚ) ≤ c2WitPos.stopLoss := by norm_num [c2WitPos]
  have hlow : (c2BTRows.getD 0 default).low ≤
      100 * (1 - defaultStratConfig.stopLossPct) := by
    norm_num [c2BTRows, defaultStratConfig, List.getD]
  have hqty : 0 < pyInt ((Backtesting.initState c2Params).capital * (95 / 100) / 200) := by
    norm_num [Backtesting.initState, c2Params, pyInt]
  have hb := c2_amended.1 c2Params c2WitState 1 98 0
  have he := (c2_amended.1 c2Params (Backtesting.initState c2Params) 0 200 1).2.2.2.1
    rfl rfl hqty
  exact ⟨hb.1, rfl, hstop, ((hb.2.1 c2WitPos rfl).1 hstop),
    hb.2.2.1 c2WitPos rfl, hqty, he.1, he.2.2, by norm_num [c2BTRows], hlow,
    c2_amended.2 defaultStratConfig c2BTRows 100 0 0 (by norm_num [c2BTRows]) hlow⟩

lemma lossesOf_eq_nil {pnls : List ℚ} (h : ∀ p ∈ pnls, 0 ≤ p) :
    Metrics.lossesOf pnls = [] := by
  simp only [Metrics.lossesOf, List.filter_eq_nil_iff]
  intro a ha
  simpa using not_lt.mpr (h a ha)

lemma winsOf_eq_self {pnls : List ℚ} (h : ∀ p ∈ pnls, 0 < p) :
    Metrics.winsOf pnls = pnls := by
  rw [Metrics.winsOf, List.filter_eq_self]
  intro a ha
  simpa using h a ha

/-- C3 amended: the backtesting-variant reducer computes profit factor
as `sum(wins)/abs(sum(losses))` and returns the `+∞` sentinel whenever
the trade list (of at least one trade) has no losing trade; the
backtest-variant reducer instead computes `abs(avg_win/avg_loss)` and
returns the sentinel 0 on an all-winning trade list. -/
theorem c3_amended :
    (∀ pnls : List ℚ, pnls ≠ [] → (∀ p ∈ pnls, 0 ≤ p) →
      Metrics.profitFactorBacktesting pnls = Metrics.PFloat.posInf) ∧
    (∀ pnls : List ℚ, 0 < (Metrics.lossesOf pnls).length →
      (Metrics.lossesOf pnls).sum ≠ 0 →
      Metrics.profitFactorBacktesting pnls =
        Metrics.PFloat.val ((Metrics.winsOf pnls).sum / |(Metrics.lossesOf pnls).sum|)) ∧
    (∀ pnls : List ℚ, (∀ p ∈ pnls, 0 < p) →
      Metrics.profitFactorBacktest pnls = Metrics.PFloat.val 0) := by
  refine ⟨?_, ?_, ?_⟩
  · intro pnls _ h
    simp [Metrics.profitFactorBacktesting, lossesOf_eq_nil h]
  · intro pnls h1 h2
    simp [Metrics.profitFactorBacktesting, h1, h2]
  · intro pnls h
    have hw := winsOf_eq_self h
    simp [Metrics.profitFactorBacktest, hw]

/-- C3 witness: concrete trade lists — `[5]` (all-winning) maps to the
`+∞` sentinel under the backtesting variant, `[4,2,-1]` maps to
`sum(wins)/abs(sum(losses))`, and `[7]` maps to 0 under the backtest
variant. -/
theorem c3_amended_witness :
    Metrics.profitFactorBacktesting [5] = Metrics.PFloat.posInf ∧
    Metrics.profitFactorBacktesting [4, 2, -1] =
      Metrics.PFloat.val ((Metrics.winsOf [4, 2, -1]).sum /
        |(Metrics.lossesOf [4, 2, -1]).sum|) ∧
    Metrics.profitFactorBacktest [7] = Metrics.PFloat.val 0 := by
  have hl : Metrics.lossesOf [(4 : ℚ), 2, -1] = [-1] := by
    norm_num [Metrics.lossesOf, List.filter]
  refine ⟨?_, ?_, ?_⟩
  · exact c3_amended.1 [5] (by simp)
      (by intro p hp; rw [List.mem_singleton] at hp; rw [hp]; norm_num)
  · exact c3_amended.2.1 [4, 2, -1] (by rw [hl]; simp) (by rw [hl]; norm_num)
  · exact c3_amended.2.2 [7]
      (by intro p hp; rw [List.mem_singleton] at hp; rw [hp]; norm_num)

lemma gains_nonneg {closes : List ℚ} : ∀ x ∈ Indicators.gains closes, 0 ≤ x := by
  intro x hx
  simp only [Indicators.gains, List.mem_cons, List.mem_map] at hx
  rcases hx with rfl | ⟨d, _, rfl⟩
  · exact le_refl 0
  · split_ifs with hd
    · exact hd.le
    · exact le_refl 0

lemma losses_nonneg {closes : List ℚ} : ∀ x ∈ Indicators.losses closes, 0 ≤ x := by
  intro x hx
  simp only [Indicators.losses, List.mem_cons, List.mem_map] at hx
  rcases hx with rfl | ⟨d, _, rfl⟩
  · exact le_refl 0
  · split_ifs with hd
    · linarith
    · exact le_refl 0

lemma rollingMean_nonneg {xs : List ℚ} (hxs : ∀ x ∈ xs, 0 ≤ x)
    {period i : ℕ} {g : ℚ} (h : Indicators.rollingMean xs period i = some g) :
    0 ≤ g := by
  simp only [Indicators.rollingMean] at h
  split_ifs at h with hcond
  obtain rfl : ((xs.drop (i + 1 - period)).take period).sum / (period : ℚ) = g :=
    Option.some.inj h
  refine div_nonneg (List.sum_nonneg ?_) (Nat.cast_nonneg period)
  intro x hx
  exact hxs x (List.drop_subset _ _ (List.take_subset _ _ hx))

/-- C7 amended: the RSI is computed from *simple rolling means* of the
per-bar gains and losses (not Wilder smoothing); both averages are
nonnegative; a row whose average loss is 0 evaluates to 100 only when
the average gain is positive, is NaN when both averages are 0, and
otherwise follows `100 - 100/(1 + gain/loss)`. -/
theorem c7_amended :
    ∀ (closes : List ℚ) (period i : ℕ) (g l : ℚ),
    Indicators.rollingMean (Indicators.gains closes) period i = some g →
    Indicators.rollingMean (Indicators.losses closes) period i = some l →
    (0 ≤ g ∧ 0 ≤ l) ∧
    (l = 0 → 0 < g → Indicators.rsiRow closes period i = some 100) ∧
    (l = 0 → g = 0 → Indicators.rsiRow closes period i = none) ∧
    (0 < l → Indicators.rsiRow closes period i = some (100 - 100 / (1 + g / l))) := by
  intro closes period i g l hg hl
  have hg0 := rollingMean_nonneg gains_nonneg hg
  have hl0 := rollingMean_nonneg losses_nonneg hl
  refine ⟨⟨hg0, hl0⟩, ?_, ?_, ?_⟩
  · intro h0 hgpos
    simp [Indicators.rsiRow, hg, hl, h0, ne_of_gt hgpos]
  · intro h0 hg0eq
    simp [Indicators.rsiRow, hg, hl, h0, hg0eq]
  · intro hlpos
    simp [Indicators.rsiRow, hg, hl, ne_of_gt hlpos]

/-- C7 witness: on `[1,2,1,3]` with period 2 at row 3 the averages are
gain 1 and loss 1/2, both nonnegative, and the RSI row follows the
rolling-mean formula. -/
theorem c7_amended_witness :
    ((0 : ℚ) ≤ 1 ∧ (0 : ℚ) ≤ 1 / 2) ∧
    ((1 : ℚ) / 2 = 0 → (0 : ℚ) < 1 → Indicators.rsiRow [1, 2, 1, 3] 2 3 = some 100) ∧
    ((1 : ℚ) / 2 = 0 → (1 : ℚ) = 0 → Indicators.rsiRow [1, 2, 1, 3] 2 3 = none) ∧
    (0 < (1 : ℚ) / 2 →
      Indicators.rsiRow [1, 2, 1, 3] 2 3 = some (100 - 100 / (1 + 1 / (1 / 2)))) := by
  refine c7_amended [1, 2, 1, 3] 2 3 1 (1 / 2) ?_ ?_ <;>
    norm_num [Indicators.rollingMean, Indicators.gains, Indicators.losses,
      Indicators.deltas]

/-- C9 counterexample: at capital −100, risk fraction −1, strength 1,
daily pnl 100, entry 10 and stop 9, the claim's hypotheses all hold
(price risk 1 > 0, risk amount 100 > 0, the daily-loss check does not
fire) yet the sizer returns −2, not a quantity ≥ 1. -/
theorem c9_counterexample :
    (0 : ℚ) < |10 - 9| ∧
    (0 : ℚ) < (-100) * (-1) * 1 ∧
    ¬ ((100 : ℚ) ≤ -(-100) * Risk.maxDailyLoss) ∧
    Risk.calculate_position_size (-100) (-1) 100 10 9 1 = -2 ∧
    ¬ ((1 : ℤ) ≤ -2) := by
  refine ⟨by norm_num, by norm_num, by norm_num [Risk.maxDailyLoss], ?_, by norm_num⟩
  norm_num [Risk.calculate_position_size, Risk.maxDailyLoss, Risk.maxPositionSize, pyInt]
  rw [Int.ceil_eq_iff]
  norm_num

end TradingBot
